import Mathlib

/-
Verification of the function-object core of the boa runtime
(src/boa/src/builtins/function_object.rs) against its specification.

The Rust source is shallowly embedded: `Gc<ValueData>` values become the
inductive `Value` (object references are heap addresses, so strict identity
is address equality), the per-entity `HashMap` stores become association
lists whose insert conses a new entry in front (lookups therefore see the
newest entry, as with a hash-map overwrite), and `&mut` state is threaded
explicitly.  Rust panics (`expect`, `unwrap`, out-of-range slicing) are
modelled as `Except.error` with the panic message.  Collaborators that live
outside the given sources (value.rs, property.rs, object.rs,
lexical_environment.rs, array.rs, the executor) are modelled from the
specification; each such definition says so in its doc comment.
-/

set_option autoImplicit false

namespace Boa

/-- Boa `Value` (`Gc<ValueData>`).  An object reference is the address of the
`Gc` allocation, so two references are identical exactly when the addresses
coincide.  Numbers are restricted to the naturals that actually occur in this
core (`length` counts). -/
inductive Value where
  | null
  | undefined
  | boolean (b : Bool)
  | num (n : Nat)
  | str (s : String)
  | objRef (addr : Nat)
deriving DecidableEq

/-- Modelled from the spec: SameValue is the strict identity-aware equality of
the value model — structural on primitives, address identity on object
references (value.rs is not part of the given sources).  The `strict` flag is
kept to mirror the source signature `same_value(x, y, strict)`. -/
def same_value (x y : Value) (_strict : Bool) : Bool :=
  decide (x = y)

/-- Modelled from the spec (property.rs not in the given sources): a property
descriptor carries optional value/writable (data side), optional get/set
(accessor side) and optional enumerable/configurable flags. -/
structure Property where
  value : Option Value
  writable : Option Bool
  get : Option Value
  set : Option Value
  enumerable : Option Bool
  configurable : Option Bool
deriving DecidableEq

/-- `Property::default()` / `Property::new()`: the empty descriptor, all
fields unset.  This is the Absent sentinel returned by `get_own_property`. -/
def Property.empty : Property :=
  { value := none, writable := none, get := none, set := none,
    enumerable := none, configurable := none }

/-- Builder `Property::value(v)` (consumes and returns the descriptor). -/
def Property.withValue (p : Property) (v : Value) : Property :=
  { p with value := some v }

/-- Builder `Property::writable(b)`. -/
def Property.withWritable (p : Property) (b : Bool) : Property :=
  { p with writable := some b }

/-- Builder `Property::get(v)`. -/
def Property.withGet (p : Property) (v : Value) : Property :=
  { p with get := some v }

/-- Builder `Property::set(v)`. -/
def Property.withSet (p : Property) (v : Value) : Property :=
  { p with set := some v }

/-- Builder `Property::enumerable(b)`. -/
def Property.withEnumerable (p : Property) (b : Bool) : Property :=
  { p with enumerable := some b }

/-- Builder `Property::configurable(b)`. -/
def Property.withConfigurable (p : Property) (b : Bool) : Property :=
  { p with configurable := some b }

/-- Modelled from the spec: a descriptor is a data descriptor when it carries
value or writable. -/
def Property.is_data_descriptor (p : Property) : Bool :=
  p.value.isSome || p.writable.isSome

/-- Modelled from the spec: a descriptor is an accessor descriptor when it
carries get or set. -/
def Property.is_accessor_descriptor (p : Property) : Bool :=
  p.get.isSome || p.set.isSome

/-- First-match lookup in an association list with `String` keys (the
observable behaviour of the source `HashMap` stores under cons-in-front
insertion). -/
def lookupA {α : Type} : List (String × α) → String → Option α
  | [], _ => none
  | (k, v) :: r, key => if k = key then some v else lookupA r key

/-- First-match lookup in an association list with `Nat` keys (the heap). -/
def lookupN {α : Type} : List (Nat × α) → Nat → Option α
  | [], _ => none
  | (a, v) :: r, addr => if a = addr then some v else lookupN r addr

/-- `object.rs` constant `PROTOTYPE` (the key of the prototype internal
slot). -/
def PROTOTYPE : String := "__proto__"

/-- Modelled from the spec (object.rs not in the given sources): a plain
object: internal-slot store plus own-property store.  Only the parts this
core reads and writes are carried. -/
structure Object where
  internal_slots : List (String × Value)
  properties : List (String × Property)
deriving DecidableEq

/-- The heap: object references (addresses) to object states.  Updates cons
in front, so lookups see the newest state of an address. -/
abbrev Heap := List (Nat × Object)

/-- Look an address up in the heap. -/
def heapGet (H : Heap) (addr : Nat) : Option Object := lookupN H addr

/-- Modelled from the spec (scope manager, lexical_environment.rs not in the
given sources): an activation record — this-binding, new-target, optional
parent environment and a mutable binding map.  A binding is created
uninitialized (`none`) and initialized to `some v`. -/
inductive Environment where
  | mk (this_binding : Value) (new_target : Value)
      (parent : Option Environment)
      (bindings : List (String × Option Value))

/-- The this-binding of an environment. -/
def Environment.this_binding : Environment → Value
  | .mk t _ _ _ => t

/-- The new-target of an environment. -/
def Environment.new_target : Environment → Value
  | .mk _ n _ _ => n

/-- The parent of an environment. -/
def Environment.parent : Environment → Option Environment
  | .mk _ _ p _ => p

/-- The binding map of an environment. -/
def Environment.bindings : Environment → List (String × Option Value)
  | .mk _ _ _ b => b

/-- Replace the binding map of an environment. -/
def Environment.withBindings : Environment → List (String × Option Value) → Environment
  | .mk t n p _, b => .mk t n p b

/-- Scope-manager `create_mutable_binding(name, deletable)`: a fresh,
uninitialized binding. -/
def Environment.create_mutable_binding (e : Environment) (name : String)
    (_deletable : Bool) : Environment :=
  e.withBindings ((name, none) :: e.bindings)

/-- Initialize the first binding with the given name. -/
def initializeB : List (String × Option Value) → String → Value → List (String × Option Value)
  | [], _, _ => []
  | (k, w) :: r, name, v =>
    if k = name then (k, some v) :: r else (k, w) :: initializeB r name v

/-- Scope-manager `initialize_binding(name, value)`. -/
def Environment.initialize_binding (e : Environment) (name : String) (v : Value) : Environment :=
  e.withBindings (initializeB e.bindings name v)

/-- Read a binding: `none` when the name is unbound, `some none` when bound
but uninitialized, `some (some v)` when initialized to `v`. -/
def Environment.getBinding (e : Environment) (name : String) : Option (Option Value) :=
  lookupA e.bindings name

/-- `new_function_environment(this, new_target, parent)`: fresh activation
with an empty binding map (modelled from the spec's scope manager). -/
def new_function_environment (thisV newTargetV : Value) (parent : Option Environment) :
    Environment :=
  .mk thisV newTargetV parent []

/-- The interpreter state this core touches: the object heap (the `Gc`
allocations, with the next fresh address) and the realm's environment stack
(`interpreter.realm.environment`). -/
structure Interp where
  heap : Heap
  nextAddr : Nat
  envStack : List Environment

/-- Allocate a fresh object (a `Gc::new` / `to_value` of an object). -/
def Interp.alloc (it : Interp) (o : Object) : Value × Interp :=
  (Value.objRef it.nextAddr,
    { it with heap := (it.nextAddr, o) :: it.heap, nextAddr := it.nextAddr + 1 })

/-- Overwrite the object stored at an address (mutation through a `GcCell`):
the new state is consed in front and shadows the old one. -/
def Interp.setHeap (it : Interp) (addr : Nat) (o : Object) : Interp :=
  { it with heap := (addr, o) :: it.heap }

/-- `interpreter.realm.environment.push(env)`. -/
def Interp.push (it : Interp) (e : Environment) : Interp :=
  { it with envStack := e :: it.envStack }

/-- `interpreter.realm.environment.pop()`. -/
def Interp.pop (it : Interp) : Interp :=
  { it with envStack := it.envStack.tail }

/-- An interpreted body's syntax tree, opaque to this core. -/
structure Node where
  id : Nat
deriving DecidableEq

/-- `ResultValue = Result<Value, Value>`: a language-level completion —
normal value or thrown error value. -/
abbrev RValue := Except Value Value

/-- `NativeFunctionData`: `fn(&Value, &[Value], &mut Interpreter) -> ResultValue`,
with the interpreter state threaded explicitly. -/
abbrev NativeFunctionData := Value → List Value → Interp → RValue × Interp

/-- `FunctionBody`: native routine or interpreted syntax node. -/
inductive FunctionBody where
  | BuiltIn (f : NativeFunctionData)
  | Ordinary (n : Node)

/-- `ThisMode`. -/
inductive ThisMode where
  | Lexical
  | NonLexical

/-- `FormalParameter` (syntax::ast::node, modelled from the spec's
`{name, is_rest}`): the two fields this core reads. -/
structure FormalParameter where
  name : String
  is_rest_param : Bool
deriving DecidableEq

/-- Boa `Function` object: internal slots, own properties, body, formal
parameters, this-mode and the optional captured closure scope. -/
structure Function where
  internal_slots : List (String × Value)
  properties : List (String × Property)
  body : FunctionBody
  params : List FormalParameter
  this_mode : ThisMode
  environment : Option Environment

/-- `Function::get_internal_slot`: the stored value, or Null when the slot is
absent. -/
def Function.get_internal_slot (f : Function) (name : String) : Value :=
  match lookupA f.internal_slots name with
  | some v => v
  | none => Value.null

/-- `Function::set_internal_slot`: insert or overwrite. -/
def Function.set_internal_slot (f : Function) (name : String) (val : Value) : Function :=
  { f with internal_slots := (name, val) :: f.internal_slots }

/-- `Function::insert_property`: unconditional overwrite. -/
def Function.insert_property (f : Function) (name : String) (p : Property) : Function :=
  { f with properties := (name, p) :: f.properties }

/-- `Function::remove_property`. -/
def Function.remove_property (f : Function) (name : String) : Function :=
  { f with properties := f.properties.filter (fun q => q.1 ≠ name) }

/-- Modelled from the spec: `define_own_property` (an `ObjectInternalMethods`
trait method, object.rs not in the given sources); on the freshly created,
extensible entities of this file its net effect is the unconditional insert
of `insert_property`. -/
def Function.define_own_property (f : Function) (name : String) (p : Property) : Function :=
  f.insert_property name p

/-- `Function::get_own_property` (property keys reach this method as the
string the key value prints to; for the string keys used here that is the
key itself).  An absent key yields the empty descriptor; a data descriptor
projects value/writable, an accessor descriptor projects get/set, and both
project enumerable/configurable. -/
def Function.get_own_property (f : Function) (prop : String) : Property :=
  match lookupA f.properties prop with
  | none => Property.empty
  | some v =>
    if v.is_data_descriptor then
      { Property.empty with
          value := v.value, writable := v.writable,
          enumerable := v.enumerable, configurable := v.configurable }
    else
      { Property.empty with
          get := v.get, set := v.set,
          enumerable := v.enumerable, configurable := v.configurable }

/-- The `length` descriptor both constructors build:
`Property::new().writable(false).enumerable(false).configurable(true)
.value(to_value(parameter_list.len()))`. -/
def lengthProperty (n : Nat) : Property :=
  ((((Property.empty.withWritable false).withEnumerable false).withConfigurable
      true).withValue (Value.num n))

/-- `Function::create_ordinary(proto, parameter_list, body, scope, this_mode)`. -/
def Function.create_ordinary (proto : Value) (parameter_list : List FormalParameter)
    (body : FunctionBody) (scope : Environment) (this_mode : ThisMode) : Function :=
  let length_property := lengthProperty parameter_list.length
  let func : Function :=
    { internal_slots := [], properties := [], body := body,
      environment := some scope, params := parameter_list, this_mode := this_mode }
  let func := func.set_internal_slot "extensible" (Value.boolean true)
  let func := func.set_internal_slot PROTOTYPE proto
  let func := func.set_internal_slot "home_object" Value.undefined
  func.define_own_property "length" length_property

/-- `Function::create_builtin(proto, parameter_list, body, this_mode)`: same
as `create_ordinary` but with no captured closure scope. -/
def Function.create_builtin (proto : Value) (parameter_list : List FormalParameter)
    (body : FunctionBody) (this_mode : ThisMode) : Function :=
  let length_property := lengthProperty parameter_list.length
  let func : Function :=
    { internal_slots := [], properties := [], body := body,
      environment := none, params := parameter_list, this_mode := this_mode }
  let func := func.set_internal_slot "extensible" (Value.boolean true)
  let func := func.set_internal_slot PROTOTYPE proto
  let func := func.set_internal_slot "home_object" Value.undefined
  func.define_own_property "length" length_property

/-- Modelled from the spec (value.rs not in the given sources):
`Value::get_internal_slot` — read an internal slot of the object a reference
points to; an absent slot, a dangling reference or a non-object read as
Null. -/
def Value.get_internal_slot (H : Heap) (v : Value) (name : String) : Value :=
  match v with
  | .objRef a =>
    match heapGet H a with
    | some o =>
      match lookupA o.internal_slots name with
      | some x => x
      | none => Value.null
    | none => Value.null
  | _ => Value.null

/-- The candidate-chain walk of `set_prototype_of` (its `while !done` loop),
with explicit fuel since the source loop does not terminate on a cyclic
chain that avoids the receiver: `some true` is the loop finishing at Null
(acyclic), `some false` is the in-loop `return false` on meeting the
receiver (`same_value(to_value(self.clone()), &p, false)` — strict identity
with the receiver, whose address is `selfAddr`), `none` is fuel running
out. -/
def protoWalk (H : Heap) (selfAddr : Nat) : Nat → Value → Option Bool
  | 0, _ => none
  | fuel + 1, p =>
    if p = Value.null then some true
    else if same_value (Value.objRef selfAddr) p false then some false
    else protoWalk H selfAddr fuel (Value.get_internal_slot H p PROTOTYPE)

/-- `n` steps along prototype internal slots starting from a value (the
specification's notion of the candidate chain). -/
def protoChain (H : Heap) : Nat → Value → Value
  | 0, v => v
  | n + 1, v => protoChain H n (Value.get_internal_slot H v PROTOTYPE)

/-- `Function::set_prototype_of(val)` for the receiver function object whose
`Gc` address is `selfAddr`.  Precondition (a `debug_assert` in the source):
`val` is an object reference or Null.  The source compares `current == val`
through the value model's equality; on object references that is the
identity check SameValue performs.  Returns the source's boolean paired with
the updated receiver, or `none` when the chain walk runs out of fuel. -/
def Function.set_prototype_of (H : Heap) (selfAddr : Nat) (f : Function) (val : Value)
    (fuel : Nat) : Option (Bool × Function) :=
  let current := f.get_internal_slot PROTOTYPE
  if current = val then some (true, f)
  else if f.get_internal_slot "extensible" = Value.null then some (false, f)
  else
    match protoWalk H selfAddr fuel val with
    | none => none
    | some false => some (false, f)
    | some true => some (true, f.set_internal_slot PROTOTYPE val)

/-- Decimal digit character. -/
def digitCh (d : Nat) : Char :=
  if d = 0 then '0' else if d = 1 then '1' else if d = 2 then '2'
  else if d = 3 then '3' else if d = 4 then '4' else if d = 5 then '5'
  else if d = 6 then '6' else if d = 7 then '7' else if d = 8 then '8'
  else if d = 9 then '9' else '*'

/-- Fuel-driven decimal formatter (most significant digit first, digits
prepended to the accumulator). -/
def toDecimalAux : Nat → Nat → List Char → List Char
  | 0, _, acc => acc
  | fuel + 1, n, acc =>
    let d := digitCh (n % 10)
    if n / 10 = 0 then d :: acc else toDecimalAux fuel (n / 10) (d :: acc)

/-- Models Rust `usize::to_string`: the decimal string of an index, used as
the property key of the element at that index. -/
def natKey (n : Nat) : String :=
  String.mk (toDecimalAux (n + 1) n [])

/-- The indexed data properties an argument or array element receives:
`value(v).enumerable(true).writable(true).configurable(true)` under the keys
`natKey start, natKey (start+1), ...`. -/
def indexedProps : List Value → Nat → List (String × Property)
  | [], _ => []
  | v :: r, i =>
    (natKey i,
      ((((Property.empty.withValue v).withEnumerable true).withWritable
          true).withConfigurable true)) :: indexedProps r (i + 1)

/-- `create_unmapped_arguments_object(arguments_list)` without the final
`to_value` allocation: the `ParameterMap` slot is Undefined, `length` is
`{value: len, writable: true}` and index `i` holds argument `i`. -/
def create_unmapped_arguments_object (arguments_list : List Value) : Object :=
  { internal_slots := [("ParameterMap", Value.undefined)],
    properties :=
      ("length", (Property.empty.withWritable true).withValue
          (Value.num arguments_list.length)) :: indexedProps arguments_list 0 }

/-- Modelled from the spec (array.rs not in the given sources): the
indexable-sequence builder's fresh empty sequence, as an object with
`length` 0. -/
def emptyArrayObject : Object :=
  { internal_slots := [],
    properties := [("length", (Property.empty.withWritable true).withValue (Value.num 0))] }

/-- `array::new_array(interpreter)`: allocate a fresh empty sequence
(modelled from the spec's `new_sequence`). -/
def new_array (it : Interp) : Value × Interp :=
  it.alloc emptyArrayObject

/-- The stored `length` of a sequence object (0 when unset or not a
number). -/
def arrayLength (o : Object) : Nat :=
  match lookupA o.properties "length" with
  | some p =>
    match p.value with
    | some (Value.num n) => n
    | _ => 0
  | none => 0

/-- Append values at the end of a sequence object: indices `length ..` get
the values, `length` grows accordingly (modelled from the spec's
`append(handle, values)`). -/
def arrayAppend (o : Object) (vals : List Value) : Object :=
  let len := arrayLength o
  { o with properties :=
      ("length", (Property.empty.withWritable true).withValue
          (Value.num (len + vals.length))) :: (indexedProps vals len ++ o.properties) }

/-- `array::add_to_array_object(&array, values)`: mutate the sequence object
behind the reference (modelled from the spec's builder). -/
def add_to_array_object (it : Interp) (arr : Value) (vals : List Value) : Interp :=
  match arr with
  | .objRef a =>
    match heapGet it.heap a with
    | some o => it.setHeap a (arrayAppend o vals)
    | none => it
  | _ => it

/-- Panic message of `args_list.get(i).expect(...)` in the binding loops of
`call` and `construct`. -/
def couldNotGetValue : String := "Could not get value"

/-- Panic message of the out-of-range slice `&args_list[index..]` in
`add_rest_param`. -/
def sliceOutOfRange : String := "slice index out of range"

/-- Panic message of `self.environment.as_ref().unwrap()` in `call` and
`construct`. -/
def environmentUnwrapNone : String := "environment unwrap on None"

/-- `Function::add_rest_param(param, index, args_list, interpreter, local_env)`:
collect `args_list[index..]` into a fresh sequence and bind it (mutably,
initialized) under the parameter's name.  The Rust slice panics when `index`
exceeds the argument count. -/
def add_rest_param (param : FormalParameter) (index : Nat) (args_list : List Value)
    (it : Interp) (local_env : Environment) :
    Except String (Environment × Interp) :=
  if index ≤ args_list.length then
    let array := new_array it
    let it1 := add_to_array_object array.2 array.1 (args_list.drop index)
    let env1 := local_env.create_mutable_binding param.name false
    let env2 := env1.initialize_binding param.name array.1
    .ok (env2, it1)
  else .error sliceOutOfRange

/-- `Function::add_arguments_to_environment(param, value, local_env)`: create
a mutable binding for the parameter's name and initialize it to the
value. -/
def add_arguments_to_environment (param : FormalParameter) (value : Value)
    (local_env : Environment) : Environment :=
  (local_env.create_mutable_binding param.name false).initialize_binding param.name value

/-- The parameter-binding loop shared verbatim by `call` (lines 159-169) and
`construct` (lines 213-223): walk the parameters left to right with the
absolute index `i`; a rest parameter collects `args_list[i..]` and stops the
loop; otherwise `args_list.get(i).expect("Could not get value")` — a panic
when the argument is missing — is bound under the parameter's name. -/
def bindParamsLoop : List FormalParameter → Nat → List Value → Environment → Interp →
    Except String (Environment × Interp)
  | [], _, _, env, it => .ok (env, it)
  | param :: rest, i, args_list, env, it =>
    if param.is_rest_param then
      add_rest_param param i args_list it env
    else
      match args_list.get? i with
      | none => .error couldNotGetValue
      | some value =>
        bindParamsLoop rest (i + 1) args_list
          (add_arguments_to_environment param value env) it

/-- The shared activation setup of `call` and `construct` (source lines
150-178 and 202-232, textually identical except for the new-target handed to
`new_function_environment`): unwrap the closure scope (a panic when it is
absent), create the activation, bind the parameters, then synthesize the
unmapped arguments object from the full original argument list (its
`to_value` allocates) and bind it under "arguments". -/
def prepareEnv (f : Function) (thisV newTargetV : Value) (args_list : List Value)
    (it : Interp) : Except String (Environment × Interp) :=
  match f.environment with
  | none => .error environmentUnwrapNone
  | some scope =>
    let local_env := new_function_environment thisV newTargetV (some scope)
    match bindParamsLoop f.params 0 args_list local_env it with
    | .error m => .error m
    | .ok (env1, it1) =>
      let alloc := it1.alloc (create_unmapped_arguments_object args_list)
      let env2 := env1.create_mutable_binding "arguments" false
      let env3 := env2.initialize_binding "arguments" alloc.1
      .ok (env3, alloc.2)

/-- The activation `call` builds: new-target is Undefined. -/
def Function.callEnv (f : Function) (thisV : Value) (args_list : List Value)
    (it : Interp) : Except String (Environment × Interp) :=
  prepareEnv f thisV Value.undefined args_list it

/-- The activation `construct` builds: new-target is the caller-supplied
`new_target`. -/
def Function.constructEnv (f : Function) (thisV new_target : Value)
    (args_list : List Value) (it : Interp) : Except String (Environment × Interp) :=
  prepareEnv f thisV new_target args_list it

/-- `Function::call(this, args_list, interpreter)`, with the external
executor `interpreter.run` passed explicitly: build the activation, push it,
run the body — a native body is applied to `(this, args_list)`, an
interpreted one is handed to the executor — then pop unconditionally and
return the body's completion.  `Except.error` is a Rust panic. -/
def Function.call (f : Function) (thisV : Value) (args_list : List Value) (it : Interp)
    (run : Node → Interp → RValue × Interp) : Except String (RValue × Interp) :=
  match f.callEnv thisV args_list it with
  | .error m => .error m
  | .ok (local_env, it1) =>
    let it2 := it1.push local_env
    let result :=
      match f.body with
      | .BuiltIn func => func thisV args_list it2
      | .Ordinary body => run body it2
    .ok (result.1, result.2.pop)

/-- `Function::construct(this, new_target, args_list, interpreter)`: as
`call`, except the activation's new-target is `new_target` and a native body
receives `new_target` in the position `call` gives `this`. -/
def Function.construct (f : Function) (thisV new_target : Value) (args_list : List Value)
    (it : Interp) (run : Node → Interp → RValue × Interp) :
    Except String (RValue × Interp) :=
  match f.constructEnv thisV new_target args_list it with
  | .error m => .error m
  | .ok (local_env, it1) =>
    let it2 := it1.push local_env
    let result :=
      match f.body with
      | .BuiltIn func => func new_target args_list it2
      | .Ordinary body => run body it2
    .ok (result.1, result.2.pop)

/-! ### Helper lemmas: environments and association lists -/

theorem Environment.withBindings_bindings (e : Environment) (b : List (String × Option Value)) :
    (e.withBindings b).bindings = b := by
  cases e; rfl

theorem Environment.withBindings_this (e : Environment) (b : List (String × Option Value)) :
    (e.withBindings b).this_binding = e.this_binding := by
  cases e; rfl

theorem Environment.withBindings_nt (e : Environment) (b : List (String × Option Value)) :
    (e.withBindings b).new_target = e.new_target := by
  cases e; rfl

theorem Environment.withBindings_withBindings (e : Environment)
    (b b' : List (String × Option Value)) :
    ((e.withBindings b).withBindings b') = e.withBindings b' := by
  cases e; rfl

theorem Environment.withBindings_self (e : Environment) :
    e.withBindings e.bindings = e := by
  cases e; rfl

/-- Creating and then initializing a binding conses the initialized entry in
front. -/
theorem create_init_cons (e : Environment) (name : String) (v : Value) :
    (e.create_mutable_binding name false).initialize_binding name v =
      e.withBindings ((name, some v) :: e.bindings) := by
  cases e
  simp [Environment.create_mutable_binding, Environment.initialize_binding,
    Environment.withBindings, Environment.bindings, initializeB]

theorem add_arguments_to_environment_eq (param : FormalParameter) (v : Value)
    (e : Environment) :
    add_arguments_to_environment param v e =
      e.withBindings ((param.name, some v) :: e.bindings) := by
  simp [add_arguments_to_environment, create_init_cons]

theorem lookupA_append {α : Type} (l1 l2 : List (String × α)) (k : String) :
    lookupA (l1 ++ l2) k =
      match lookupA l1 k with
      | some v => some v
      | none => lookupA l2 k := by
  induction l1 with
  | nil => simp [lookupA]
  | cons q r ih =>
    obtain ⟨k', v⟩ := q
    by_cases h : k' = k <;> simp [lookupA, h, ih]

theorem lookupN_eq_none {α : Type} (l : List (Nat × α)) (a : Nat)
    (h : ∀ q ∈ l, q.1 ≠ a) : lookupN l a = none := by
  induction l with
  | nil => rfl
  | cons q r ih =>
    obtain ⟨a', v⟩ := q
    have h1 : a' ≠ a := h (a', v) (List.mem_cons_self _ _)
    simp only [lookupN, if_neg h1]
    exact ih (fun q hq => h q (List.mem_cons_of_mem _ hq))

/-! ### The decimal index keys: correctness and injectivity of `natKey` -/

/-- The digit list of `n` (what `natKey` packs into a string). -/
def digitsOf (n : Nat) : List Char := toDecimalAux (n + 1) n []

theorem toDecimalAux_acc (fuel : Nat) :
    ∀ n acc, n < fuel → toDecimalAux fuel n acc = digitsOf n ++ acc := by
  induction fuel using Nat.strong_induction_on with
  | _ fuel ih =>
    intro n acc hn
    match fuel, hn with
    | fuel + 1, hn =>
      by_cases h0 : n / 10 = 0
      · simp [toDecimalAux, digitsOf, h0]
      · have h10 : 0 < n := by
          rcases Nat.eq_zero_or_pos n with h | h
          · exact absurd (by simp [h]) h0
          · exact h
        have hdiv : n / 10 < n := Nat.div_lt_self h10 (by omega)
        have hn' : n ≤ fuel := by omega
        have l1 : toDecimalAux fuel (n / 10) (digitCh (n % 10) :: acc) =
            digitsOf (n / 10) ++ (digitCh (n % 10) :: acc) :=
          ih fuel (by omega) (n / 10) _ (by omega)
        have l2 : toDecimalAux n (n / 10) [digitCh (n % 10)] =
            digitsOf (n / 10) ++ [digitCh (n % 10)] :=
          ih n (by omega) (n / 10) _ (by omega)
        simp only [toDecimalAux, h0, if_neg h0, digitsOf, l1, l2]
        simp

/-- `digitsOf` unfolded one decimal digit. -/
theorem digitsOf_spec (n : Nat) :
    digitsOf n =
      if n / 10 = 0 then [digitCh (n % 10)]
      else digitsOf (n / 10) ++ [digitCh (n % 10)] := by
  by_cases h0 : n / 10 = 0
  · simp [digitsOf, toDecimalAux, h0]
  · have h10 : 0 < n := by
      rcases Nat.eq_zero_or_pos n with h | h
      · exact absurd (by simp [h]) h0
      · exact h
    have hdiv : n / 10 < n := Nat.div_lt_self h10 (by omega)
    rw [if_neg h0]
    have hstep : digitsOf n = toDecimalAux n (n / 10) [digitCh (n % 10)] := by
      simp [digitsOf, toDecimalAux, h0]
    rw [hstep]
    exact toDecimalAux_acc n (n / 10) _ (by omega)

/-- Decimal value of a digit character. -/
def dVal (c : Char) : Nat :=
  if c = '0' then 0 else if c = '1' then 1 else if c = '2' then 2
  else if c = '3' then 3 else if c = '4' then 4 else if c = '5' then 5
  else if c = '6' then 6 else if c = '7' then 7 else if c = '8' then 8
  else if c = '9' then 9 else 0

/-- Decimal value of a digit string. -/
def decVal (l : List Char) : Nat :=
  l.foldl (fun a c => a * 10 + dVal c) 0

theorem dVal_digitCh (d : Nat) (h : d < 10) : dVal (digitCh d) = d := by
  interval_cases d <;> rfl

theorem decVal_append_digit (l : List Char) (c : Char) :
    decVal (l ++ [c]) = decVal l * 10 + dVal c := by
  simp [decVal, List.foldl_append]

theorem decVal_digitsOf (n : Nat) : decVal (digitsOf n) = n := by
  induction n using Nat.strong_induction_on with
  | _ n ih =>
    rw [digitsOf_spec]
    by_cases h0 : n / 10 = 0
    · have hlt : n < 10 := by omega
      simp only [h0, if_pos rfl, decVal, List.foldl]
      rw [dVal_digitCh _ (Nat.mod_lt _ (by omega))]
      omega
    · have h10 : 0 < n := by
        rcases Nat.eq_zero_or_pos n with h | h
        · exact absurd (by simp [h]) h0
        · exact h
      have hdiv : n / 10 < n := Nat.div_lt_self h10 (by omega)
      rw [if_neg h0, decVal_append_digit, ih (n / 10) hdiv,
        dVal_digitCh _ (Nat.mod_lt _ (by omega))]
      omega

theorem natKey_injective : ∀ a b : Nat, natKey a = natKey b → a = b := by
  intro a b h
  have hd : digitsOf a = digitsOf b := by
    have := congrArg String.data h
    simpa [natKey] using this
  have := congrArg decVal hd
  simpa [decVal_digitsOf] using this

theorem natKey_ne {a b : Nat} (h : a ≠ b) : natKey a ≠ natKey b :=
  fun hk => h (natKey_injective a b hk)

theorem mem_digitsOf_ne_l (n : Nat) : ∀ c ∈ digitsOf n, c ≠ 'l' := by
  induction n using Nat.strong_induction_on with
  | _ n ih =>
    intro c hc
    rw [digitsOf_spec] at hc
    have hm : n % 10 < 10 := Nat.mod_lt _ (by omega)
    have hdig : digitCh (n % 10) ≠ 'l' := by
      generalize n % 10 = d at hm
      interval_cases d <;> decide
    by_cases h0 : n / 10 = 0
    · rw [if_pos h0] at hc
      simp only [List.mem_singleton] at hc
      exact hc ▸ hdig
    · rw [if_neg h0] at hc
      rcases List.mem_append.mp hc with h | h
      · have h10 : 0 < n := by
          rcases Nat.eq_zero_or_pos n with hz | hz
          · exact absurd (by simp [hz]) h0
          · exact hz
        exact ih (n / 10) (Nat.div_lt_self h10 (by omega)) c h
      · simp only [List.mem_singleton] at h
        exact h ▸ hdig

theorem natKey_ne_length (n : Nat) : natKey n ≠ "length" := by
  intro h
  have hd : digitsOf n = "length".data := by
    have := congrArg String.data h
    simpa [natKey] using this
  have hmem : 'l' ∈ digitsOf n := by
    rw [hd]
    decide
  exact mem_digitsOf_ne_l n 'l' hmem rfl

/-! ### Lookup lemmas for indexed element properties -/

theorem lookupA_indexedProps_lt (vals : List Value) :
    ∀ i j, j < vals.length →
      lookupA (indexedProps vals i) (natKey (i + j)) =
        some ((((Property.empty.withValue (vals.getD j Value.undefined)).withEnumerable
            true).withWritable true).withConfigurable true) := by
  induction vals with
  | nil => intro i j h; simp at h
  | cons v r ih =>
    intro i j h
    match j with
    | 0 => simp [indexedProps, lookupA, List.getD]
    | j + 1 =>
      have hne : natKey i ≠ natKey (i + (j + 1)) := natKey_ne (by omega)
      simp only [indexedProps, lookupA, if_neg hne]
      have := ih (i + 1) j (by simpa using h)
      rw [show i + (j + 1) = (i + 1) + j by omega]
      simpa [List.getD] using this

theorem lookupA_indexedProps_ge (vals : List Value) :
    ∀ i j, (j < i ∨ i + vals.length ≤ j) →
      lookupA (indexedProps vals i) (natKey j) = none := by
  induction vals with
  | nil => intro i j _; rfl
  | cons v r ih =>
    intro i j h
    simp only [List.length_cons] at h
    have hne : natKey i ≠ natKey j := natKey_ne (by omega)
    simp only [indexedProps, lookupA, if_neg hne]
    exact ih (i + 1) j (by omega)

/-! ### Prototype-chain lemmas -/

theorem protoChain_null (H : Heap) : ∀ n, protoChain H n Value.null = Value.null := by
  intro n
  induction n with
  | zero => rfl
  | succ n ih => simpa [protoChain, Value.get_internal_slot] using ih

/-- If the candidate chain reaches the receiver in `n` steps, the source's
walk returns `false` given more than `n` units of fuel. -/
theorem protoWalk_reaches (H : Heap) (selfAddr : Nat) :
    ∀ n v, protoChain H n v = Value.objRef selfAddr →
      ∀ fuel, n < fuel → protoWalk H selfAddr fuel v = some false := by
  intro n
  induction n with
  | zero =>
    intro v h fuel hf
    match fuel, hf with
    | fuel + 1, _ =>
      have hv : v = Value.objRef selfAddr := h
      subst hv
      simp [protoWalk, same_value]
  | succ n ih =>
    intro v h fuel hf
    match fuel, hf with
    | fuel + 1, hf =>
      have hstep : protoChain H n (Value.get_internal_slot H v PROTOTYPE) =
          Value.objRef selfAddr := h
      have hvnull : v ≠ Value.null := by
        intro hv
        subst hv
        rw [show Value.get_internal_slot H Value.null PROTOTYPE = Value.null from rfl,
          protoChain_null] at hstep
        exact Value.noConfusion hstep
      by_cases hs : same_value (Value.objRef selfAddr) v false = true
      · simp [protoWalk, hvnull, hs]
      · have := ih (Value.get_internal_slot H v PROTOTYPE) hstep fuel (by omega)
        simp [protoWalk, hvnull, hs, this]

/-! ### Shared concrete instances (used by witnesses and counterexamples) -/

/-- A native routine that returns Undefined and leaves the interpreter
untouched. -/
def nfConstUndefined : NativeFunctionData := fun _ _ s => (Except.ok Value.undefined, s)

/-- An executor that returns Undefined and leaves the interpreter
untouched. -/
def runConstUndefined : Node → Interp → RValue × Interp :=
  fun _ s => (Except.ok Value.undefined, s)

/-- A root scope. -/
def envRoot : Environment := new_function_environment Value.undefined Value.undefined none

/-- An interpreter state with empty heap and empty environment stack. -/
def itEmpty : Interp := ⟨[], 0, []⟩

/-! ### C7 -/

/-- C7: for every entity, `set_prototype_of` applied to a value
SameValue-equal to the current prototype internal slot returns true and
performs no mutation, whatever the extensible slot holds (the receiver is
returned unchanged before extensibility is even read). -/
theorem set_prototype_of_noop (H : Heap) (selfAddr : Nat) (f : Function) (val : Value)
    (fuel : Nat) (h : same_value (f.get_internal_slot PROTOTYPE) val false = true) :
    Function.set_prototype_of H selfAddr f val fuel = some (true, f) := by
  have heq : f.get_internal_slot PROTOTYPE = val := by
    simpa [same_value] using h
  simp [Function.set_prototype_of, heq]

/-- A receiver whose prototype slot holds an object reference and whose
extensible slot is absent. -/
def fNoopW : Function :=
  { internal_slots := [(PROTOTYPE, Value.objRef 3)], properties := [],
    body := .BuiltIn nfConstUndefined, params := [], this_mode := .NonLexical,
    environment := none }

theorem set_prototype_of_noop_witness :
    Function.set_prototype_of [] 0 fNoopW (Value.objRef 3) 0 = some (true, fNoopW) :=
  set_prototype_of_noop [] 0 fNoopW (Value.objRef 3) 0 (by decide)

/-! ### C4 -/

/-- C4: if the candidate chain from `new_proto` reaches the receiver itself
(by strict identity) and the receiver's own current chain does not (the
spec's no-pre-existing-cycle invariant), then `set_prototype_of` returns
false and leaves the receiver — in particular its prototype internal slot —
unchanged. -/
theorem set_prototype_of_cycle (H : Heap) (selfAddr : Nat) (f : Function) (val : Value)
    (fuel n : Nat)
    (hreach : protoChain H n val = Value.objRef selfAddr)
    (hinv : ∀ m, protoChain H m (f.get_internal_slot PROTOTYPE) ≠ Value.objRef selfAddr)
    (hfuel : n < fuel) :
    Function.set_prototype_of H selfAddr f val fuel = some (false, f) := by
  have hne : ¬(f.get_internal_slot PROTOTYPE = val) := by
    intro he
    exact hinv n (by rw [he]; exact hreach)
  have hwalk := protoWalk_reaches H selfAddr n val hreach fuel hfuel
  by_cases hex : f.get_internal_slot "extensible" = Value.null
  · simp [Function.set_prototype_of, hne, hex]
  · simp [Function.set_prototype_of, hne, hex, hwalk]

/-- The receiver B of the specification's scenario: extensible, prototype
Null, living at address 0. -/
def fCycleW : Function :=
  { internal_slots := [(PROTOTYPE, Value.null), ("extensible", Value.boolean true)],
    properties := [], body := .BuiltIn nfConstUndefined, params := [],
    this_mode := .NonLexical, environment := none }

/-- A heap where object A (address 1) has B (address 0) as prototype. -/
def heapCycleW : Heap :=
  [(1, { internal_slots := [(PROTOTYPE, Value.objRef 0)], properties := [] })]

theorem set_prototype_of_cycle_witness :
    Function.set_prototype_of heapCycleW 0 fCycleW (Value.objRef 1) 2 =
      some (false, fCycleW) :=
  set_prototype_of_cycle heapCycleW 0 fCycleW (Value.objRef 1) 2 1 (by decide)
    (fun m => by
      rw [show fCycleW.get_internal_slot PROTOTYPE = Value.null from rfl,
        protoChain_null]
      decide)
    (by omega)

/-! ### C10 -/

/-- C10: on a terminating chain walk, `set_prototype_of` fails — returns
false with the receiver unmutated — exactly when the new prototype differs
from the current one and either the extensible slot is entirely absent
(reads as Null) or the walk detects a cycle; and an extensible slot that
explicitly holds the Boolean false does not cause failure: the prototype is
still replaced. -/
theorem set_prototype_of_fail_iff (H : Heap) (selfAddr : Nat) (f : Function) (val : Value)
    (fuel : Nat) (w : Bool)
    (hw : protoWalk H selfAddr fuel val = some w) :
    (Function.set_prototype_of H selfAddr f val fuel = some (false, f) ↔
      (same_value (f.get_internal_slot PROTOTYPE) val false = false ∧
        (f.get_internal_slot "extensible" = Value.null ∨ w = false))) ∧
    (same_value (f.get_internal_slot PROTOTYPE) val false = false →
      f.get_internal_slot "extensible" = Value.boolean false →
      w = true →
      Function.set_prototype_of H selfAddr f val fuel =
        some (true, f.set_internal_slot PROTOTYPE val)) := by
  by_cases he : f.get_internal_slot PROTOTYPE = val
  · constructor
    · simp [Function.set_prototype_of, he, same_value]
    · intro hsv
      simp [same_value, he] at hsv
  · have hsv : same_value (f.get_internal_slot PROTOTYPE) val false = false := by
      simp [same_value, he]
    by_cases hex : f.get_internal_slot "extensible" = Value.null
    · constructor
      · simp [Function.set_prototype_of, he, hex, hsv]
      · intro _ hexf
        rw [hexf] at hex
        exact absurd hex (by simp)
    · cases w with
      | false =>
        constructor
        · simp [Function.set_prototype_of, he, hex, hw, hsv]
        · intro _ _ hwt
          exact absurd hwt (by simp)
      | true =>
        constructor
        · simp [Function.set_prototype_of, he, hex, hw, hsv]
        · intro _ _ _
          simp [Function.set_prototype_of, he, hex, hw]

/-- A receiver whose extensible slot explicitly holds false. -/
def fExtFalseW : Function :=
  { internal_slots := [(PROTOTYPE, Value.null), ("extensible", Value.boolean false)],
    properties := [], body := .BuiltIn nfConstUndefined, params := [],
    this_mode := .NonLexical, environment := none }

theorem set_prototype_of_fail_iff_witness :
    Function.set_prototype_of [] 0 fExtFalseW (Value.objRef 5) 2 =
      some (true, fExtFalseW.set_internal_slot PROTOTYPE (Value.objRef 5)) :=
  (set_prototype_of_fail_iff [] 0 fExtFalseW (Value.objRef 5) 2 true (by decide)).2
    (by decide) (by decide) rfl

/-! ### C8 -/

theorem lookupA_filter_ne {α : Type} (l : List (String × α)) (key : String) :
    lookupA (l.filter fun q => q.1 ≠ key) key = none := by
  induction l with
  | nil => rfl
  | cons q r ih =>
    obtain ⟨k, v⟩ := q
    rw [List.filter_cons]
    by_cases hk : k = key
    · rw [if_neg (by simp [hk])]
      exact ih
    · rw [if_pos (by simp [hk])]
      simp only [lookupA, if_neg hk]
      exact ih

/-- C8: a key never inserted into the own-property table (and likewise a key
just removed) reads back as the Absent sentinel — the empty descriptor,
which is not a data descriptor and in particular does not carry the value
Undefined; `get_own_property` takes the entity by shared reference, so the
read mutates nothing and repeats identically. -/
theorem get_own_property_absent (f : Function) (key : String)
    (h : lookupA f.properties key = none) :
    f.get_own_property key = Property.empty ∧
    (f.get_own_property key).is_data_descriptor = false ∧
    (f.get_own_property key).value ≠ some Value.undefined ∧
    ∀ g : Function, (g.remove_property key).get_own_property key = Property.empty := by
  have habs : f.get_own_property key = Property.empty := by
    simp [Function.get_own_property, h]
  refine ⟨habs, ?_, ?_, ?_⟩
  · rw [habs]; rfl
  · rw [habs]; simp [Property.empty]
  · intro g
    have hg : lookupA (g.remove_property key).properties key = none :=
      lookupA_filter_ne g.properties key
    simp [Function.get_own_property, hg]

/-- An entity with an empty own-property table. -/
def fEmptyPropsW : Function :=
  { internal_slots := [], properties := [], body := .BuiltIn nfConstUndefined,
    params := [], this_mode := .NonLexical, environment := none }

theorem get_own_property_absent_witness :
    fEmptyPropsW.get_own_property "x" = Property.empty ∧
    (fEmptyPropsW.get_own_property "x").is_data_descriptor = false ∧
    (fEmptyPropsW.get_own_property "x").value ≠ some Value.undefined ∧
    ∀ g : Function, (g.remove_property "x").get_own_property "x" = Property.empty :=
  get_own_property_absent fEmptyPropsW "x" rfl

/-! ### C2 -/

/-- The parameter list `[a, b, ...rest]`. -/
def paramsABRest : List FormalParameter :=
  [⟨"a", false⟩, ⟨"b", false⟩, ⟨"rest", true⟩]

/-- C2 is false on the code: an entity created with parameters
`[a, b, ...rest]` gets a `length` value of 3 — `parameter_list.len()`
counts the rest parameter — not the claimed 2. -/
theorem create_ordinary_length_counts_rest :
    ((Function.create_ordinary Value.null paramsABRest (FunctionBody.Ordinary ⟨0⟩)
        envRoot ThisMode.NonLexical).get_own_property "length").value =
      some (Value.num 3) ∧ Value.num 3 ≠ Value.num 2 := by
  exact ⟨by decide, by decide⟩

/-- C2 (amended): both constructors install a `length` own property whose
value is the total number of parameters — a rest parameter, if present, is
counted — with descriptor writable:false, enumerable:false,
configurable:true. -/
theorem create_length_property (proto : Value) (params : List FormalParameter)
    (body bodyB : FunctionBody) (scope : Environment) (mode modeB : ThisMode) :
    (Function.create_ordinary proto params body scope mode).get_own_property "length" =
      lengthProperty params.length ∧
    (Function.create_builtin proto params bodyB modeB).get_own_property "length" =
      lengthProperty params.length := by
  constructor <;>
    simp [Function.create_ordinary, Function.create_builtin,
      Function.define_own_property, Function.insert_property,
      Function.set_internal_slot, Function.get_own_property, lookupA,
      lengthProperty, Property.is_data_descriptor, Property.empty,
      Property.withValue, Property.withWritable, Property.withEnumerable,
      Property.withConfigurable]

/-! ### C3 -/

/-- C3 is violated by the code: an entity built by `create_builtin` has no
closure scope, and `call` unwraps `self.environment` unconditionally —
before even looking at the body — so calling a native entity dies on the
unwrap panic instead of proceeding to the native routine. -/
theorem call_builtin_env_unwrap_panics :
    (Function.create_builtin Value.null [] (FunctionBody.BuiltIn nfConstUndefined)
        ThisMode.NonLexical).call Value.undefined [] itEmpty runConstUndefined =
      .error environmentUnwrapNone := rfl

/-! ### C1 counterexample -/

/-- An ordinary entity with the single non-rest parameter `x`. -/
def fOneParamW : Function :=
  { internal_slots := [], properties := [], body := .BuiltIn nfConstUndefined,
    params := [⟨"x", false⟩], this_mode := .NonLexical, environment := some envRoot }

/-- C1 is false on the code: calling an entity whose parameter list is `[x]`
with an empty argument list does not bind `x` to Undefined — it panics with
"Could not get value" (`args_list.get(i).expect`), aborting the
invocation. -/
theorem call_short_args_panics :
    fOneParamW.call Value.undefined [] itEmpty runConstUndefined =
      .error couldNotGetValue := rfl

/-! ### Binding-loop lemmas -/

/-- The bindings the loop conses for a run of non-rest parameters starting
at absolute index `i`: the last-bound parameter ends up in front. -/
def revBinds : List FormalParameter → Nat → List Value → List (String × Option Value)
  | [], _, _ => []
  | p :: r, i, A => revBinds r (i + 1) A ++ [(p.name, some (A.getD i Value.undefined))]

theorem lookupA_revBinds_notmem (P : List FormalParameter) :
    ∀ i A k, k ∉ P.map FormalParameter.name → lookupA (revBinds P i A) k = none := by
  induction P with
  | nil => intro i A k _; rfl
  | cons p r ih =>
    intro i A k hk
    simp only [List.map_cons, List.mem_cons, not_or] at hk
    rw [revBinds, lookupA_append, ih (i + 1) A k hk.2]
    simp only [lookupA]
    rw [if_neg (Ne.symm hk.1)]

theorem lookupA_revBinds (P : List FormalParameter) :
    ∀ i A j (hj : j < P.length), (P.map FormalParameter.name).Nodup →
      lookupA (revBinds P i A) ((P.get ⟨j, hj⟩).name) =
        some (some (A.getD (i + j) Value.undefined)) := by
  induction P with
  | nil => intro i A j hj _; simp at hj
  | cons p r ih =>
    intro i A j hj hnd
    simp only [List.map_cons, List.nodup_cons] at hnd
    match j with
    | 0 =>
      have hred : ((p :: r).get ⟨0, hj⟩) = p := rfl
      rw [hred, revBinds, lookupA_append,
        lookupA_revBinds_notmem r (i + 1) A (p.name) hnd.1]
      simp [lookupA]
    | j + 1 =>
      have hj' : j < r.length := by simpa using hj
      have hred : ((p :: r).get ⟨j + 1, hj⟩) = r.get ⟨j, hj'⟩ := rfl
      rw [hred, revBinds, lookupA_append, ih (i + 1) A j hj' hnd.2,
        show i + 1 + j = i + (j + 1) by omega]

/-- Splitting the binding loop over a run of non-rest parameters that all
have arguments: each is bound to its argument, and the loop continues. -/
theorem bindLoop_append_nonrest (pre : List FormalParameter) :
    ∀ (q : List FormalParameter) (i : Nat) (A : List Value) (env : Environment)
      (it : Interp), (∀ p ∈ pre, p.is_rest_param = false) →
      i + pre.length ≤ A.length →
      bindParamsLoop (pre ++ q) i A env it =
        bindParamsLoop q (i + pre.length) A
          (env.withBindings (revBinds pre i A ++ env.bindings)) it := by
  induction pre with
  | nil =>
    intro q i A env it _ _
    simp [revBinds, Environment.withBindings_self]
  | cons p pre' ih =>
    intro q i A env it hnr hlen
    simp only [List.length_cons] at hlen
    have hi : i < A.length := by omega
    have hgd : A.getD i Value.undefined = A[i] := by
      rw [List.getD_eq_getElem?_getD, List.getElem?_eq_getElem hi, Option.getD_some]
    have hget : A.get? i = some (A.getD i Value.undefined) := by
      rw [hgd, List.get?_eq_getElem?, List.getElem?_eq_getElem hi]
    have hp : p.is_rest_param = false := hnr p (List.mem_cons_self _ _)
    rw [List.cons_append]
    simp only [bindParamsLoop, hp, Bool.false_eq_true, if_false, hget]
    rw [add_arguments_to_environment_eq,
      ih q (i + 1) A _ it (fun x hx => hnr x (List.mem_cons_of_mem _ hx)) (by omega)]
    rw [Environment.withBindings_withBindings, Environment.withBindings_bindings]
    have hassoc : revBinds pre' (i + 1) A ++ ((p.name, some (A.getD i Value.undefined)) ::
        env.bindings) = revBinds (p :: pre') i A ++ env.bindings := by
      rw [revBinds, List.append_assoc]
      rfl
    rw [hassoc]
    have hlen2 : i + 1 + pre'.length = i + (p :: pre').length := by
      simp only [List.length_cons]
      omega
    rw [hlen2]

/-- When the arguments run out inside a run of non-rest parameters, the loop
dies on the `expect` panic. -/
theorem bindLoop_panic (pre : List FormalParameter) :
    ∀ (q : List FormalParameter) (i : Nat) (A : List Value) (env : Environment)
      (it : Interp), (∀ p ∈ pre, p.is_rest_param = false) →
      i ≤ A.length → A.length < i + pre.length →
      bindParamsLoop (pre ++ q) i A env it = .error couldNotGetValue := by
  induction pre with
  | nil => intro q i A env it _ h1 h2; simp at h2; omega
  | cons p pre' ih =>
    intro q i A env it hnr h1 h2
    simp only [List.length_cons] at h2
    have hp : p.is_rest_param = false := hnr p (List.mem_cons_self _ _)
    rw [List.cons_append]
    by_cases hi : i < A.length
    · have hgd : A.getD i Value.undefined = A[i] := by
        rw [List.getD_eq_getElem?_getD, List.getElem?_eq_getElem hi, Option.getD_some]
      have hget : A.get? i = some (A.getD i Value.undefined) := by
        rw [hgd, List.get?_eq_getElem?, List.getElem?_eq_getElem hi]
      simp only [bindParamsLoop, hp, Bool.false_eq_true, if_false, hget]
      exact ih q (i + 1) A _ it (fun x hx => hnr x (List.mem_cons_of_mem _ hx))
        (by omega) (by omega)
    · have hge : A.length ≤ i := by omega
      have hget : A.get? i = none := by
        rw [List.get?_eq_getElem?, List.getElem?_eq_none hge]
      simp only [bindParamsLoop, hp, Bool.false_eq_true, if_false, hget]

theorem add_to_array_object_envStack (it : Interp) (arr : Value) (vals : List Value) :
    (add_to_array_object it arr vals).envStack = it.envStack := by
  unfold add_to_array_object
  split
  · split <;> rfl
  · rfl

theorem bindLoop_envStack (P : List FormalParameter) :
    ∀ i A env it env' it', bindParamsLoop P i A env it = .ok (env', it') →
      it'.envStack = it.envStack := by
  induction P with
  | nil =>
    intro i A env it env' it' h
    cases h
    rfl
  | cons p r ih =>
    intro i A env it env' it' h
    by_cases hp : p.is_rest_param
    · simp only [bindParamsLoop, hp, if_true] at h
      unfold add_rest_param at h
      by_cases hle : i ≤ A.length
      · rw [if_pos hle] at h
        cases h
        exact add_to_array_object_envStack _ _ _
      · rw [if_neg hle] at h
        cases h
    · simp only [bindParamsLoop, hp, if_false] at h
      cases hget : A.get? i with
      | none => rw [hget] at h; cases h
      | some v =>
        rw [hget] at h
        exact ih (i + 1) A _ it env' it' h

theorem prepareEnv_envStack (f : Function) (thisV ntV : Value) (A : List Value)
    (it : Interp) (env : Environment) (it1 : Interp)
    (h : prepareEnv f thisV ntV A it = .ok (env, it1)) :
    it1.envStack = it.envStack := by
  unfold prepareEnv at h
  cases henv : f.environment with
  | none => rw [henv] at h; cases h
  | some scope =>
    rw [henv] at h
    dsimp only at h
    cases hb : bindParamsLoop f.params 0 A
        (new_function_environment thisV ntV (some scope)) it with
    | error m => rw [hb] at h; cases h
    | ok x =>
      obtain ⟨env1, it2⟩ := x
      rw [hb] at h
      dsimp only at h
      cases h
      exact bindLoop_envStack f.params 0 A _ it env1 it2 hb

/-- Rebase the new-target an environment was created with. -/
def Environment.withNewTarget : Environment → Value → Environment
  | .mk t _ p b, n => .mk t n p b

theorem Environment.withNewTarget_bindings (e : Environment) (n : Value) :
    (e.withNewTarget n).bindings = e.bindings := by
  cases e; rfl

theorem Environment.withNewTarget_this (e : Environment) (n : Value) :
    (e.withNewTarget n).this_binding = e.this_binding := by
  cases e; rfl

theorem Environment.withNewTarget_nt (e : Environment) (n : Value) :
    (e.withNewTarget n).new_target = n := by
  cases e; rfl

theorem withNewTarget_create (e : Environment) (n : Value) (name : String) (d : Bool) :
    (e.withNewTarget n).create_mutable_binding name d =
      (e.create_mutable_binding name d).withNewTarget n := by
  cases e; rfl

theorem withNewTarget_initialize (e : Environment) (n : Value) (name : String) (v : Value) :
    (e.withNewTarget n).initialize_binding name v =
      (e.initialize_binding name v).withNewTarget n := by
  cases e; rfl

theorem withNewTarget_add_arguments (p : FormalParameter) (v : Value) (e : Environment)
    (n : Value) :
    add_arguments_to_environment p v (e.withNewTarget n) =
      (add_arguments_to_environment p v e).withNewTarget n := by
  unfold add_arguments_to_environment
  rw [withNewTarget_create, withNewTarget_initialize]

/-- The binding loop only touches the binding map: rebasing the new-target
commutes with it. -/
theorem bindLoop_withNewTarget (P : List FormalParameter) :
    ∀ i A env it n, bindParamsLoop P i A (env.withNewTarget n) it =
      (bindParamsLoop P i A env it).map (fun x => (x.1.withNewTarget n, x.2)) := by
  induction P with
  | nil => intro i A env it n; rfl
  | cons p r ih =>
    intro i A env it n
    by_cases hp : p.is_rest_param = true
    · simp only [bindParamsLoop, hp, if_true]
      unfold add_rest_param
      by_cases hle : i ≤ A.length
      · rw [if_pos hle, if_pos hle]
        dsimp only [Except.map]
        rw [withNewTarget_create, withNewTarget_initialize]
      · rw [if_neg hle, if_neg hle]
        rfl
    · have hp' : p.is_rest_param = false := by
        revert hp
        cases p.is_rest_param <;> simp
      simp only [bindParamsLoop, hp', Bool.false_eq_true, if_false]
      cases hget : A.get? i with
      | none => rfl
      | some v =>
        dsimp only
        rw [withNewTarget_add_arguments, ih]

/-- The shared activation setup differs from its call form only in the
new-target stored in the activation. -/
theorem prepareEnv_withNewTarget (f : Function) (thisV ntV : Value) (A : List Value)
    (it : Interp) :
    prepareEnv f thisV ntV A it =
      (prepareEnv f thisV Value.undefined A it).map
        (fun x => (x.1.withNewTarget ntV, x.2)) := by
  unfold prepareEnv
  cases henv : f.environment with
  | none => rfl
  | some scope =>
    dsimp only
    have hnfe : new_function_environment thisV ntV (some scope) =
        (new_function_environment thisV Value.undefined (some scope)).withNewTarget ntV :=
      rfl
    rw [hnfe, bindLoop_withNewTarget]
    cases hb : bindParamsLoop f.params 0 A
        (new_function_environment thisV Value.undefined (some scope)) it with
    | error m => rfl
    | ok x =>
      obtain ⟨env1, it2⟩ := x
      dsimp only [Except.map]
      rw [withNewTarget_create, withNewTarget_initialize]

theorem call_error_of_callEnv (f : Function) (thisV : Value) (A : List Value)
    (it : Interp) (run : Node → Interp → RValue × Interp) (m : String)
    (h : f.callEnv thisV A it = .error m) :
    f.call thisV A it run = .error m := by
  unfold Function.call
  rw [h]

theorem prepareEnv_error_of_bindLoop (f : Function) (thisV ntV : Value) (A : List Value)
    (it : Interp) (scope : Environment) (m : String)
    (hscope : f.environment = some scope)
    (hbErr : bindParamsLoop f.params 0 A
        (new_function_environment thisV ntV (some scope)) it = .error m) :
    prepareEnv f thisV ntV A it = .error m := by
  unfold prepareEnv
  rw [hscope]
  dsimp only
  rw [hbErr]

/-- The arguments-object step after a successful binding loop: the object is
allocated at the next fresh address and bound in front. -/
theorem prepareEnv_of_bindLoop (f : Function) (thisV ntV : Value) (A : List Value)
    (it : Interp) (scope : Environment) (env1 : Environment) (it1 : Interp)
    (hscope : f.environment = some scope)
    (hb : bindParamsLoop f.params 0 A
        (new_function_environment thisV ntV (some scope)) it = .ok (env1, it1)) :
    prepareEnv f thisV ntV A it =
      .ok (env1.withBindings (("arguments", some (Value.objRef it1.nextAddr)) ::
          env1.bindings),
        (it1.alloc (create_unmapped_arguments_object A)).2) := by
  unfold prepareEnv
  rw [hscope]
  dsimp only
  rw [hb]
  dsimp only
  rw [create_init_cons]
  rfl

theorem getD_drop (A : List Value) (k j : Nat) :
    (A.drop k).getD j Value.undefined = A.getD (k + j) Value.undefined := by
  rw [List.getD_eq_getElem?_getD, List.getD_eq_getElem?_getD, List.getElem?_drop]

/-- Appending to the fresh empty sequence yields exactly the indexed
elements plus the length. -/
theorem arrayAppend_empty (vals : List Value) :
    arrayAppend emptyArrayObject vals =
      { internal_slots := [],
        properties :=
          ("length", (Property.empty.withWritable true).withValue
              (Value.num vals.length)) ::
            (indexedProps vals 0 ++
              [("length", (Property.empty.withWritable true).withValue
                  (Value.num 0))]) } := by
  unfold arrayAppend
  dsimp only
  rw [show arrayLength emptyArrayObject = 0 from rfl]
  simp [emptyArrayObject]

theorem arrObj_lookup_lt (vals : List Value) (j : Nat) (hj : j < vals.length) :
    (lookupA (arrayAppend emptyArrayObject vals).properties (natKey j)).map
        Property.value = some (some (vals.getD j Value.undefined)) := by
  rw [arrayAppend_empty]
  dsimp only
  simp only [lookupA]
  rw [if_neg (Ne.symm (natKey_ne_length j)), lookupA_append]
  have hip := lookupA_indexedProps_lt vals 0 j hj
  simp only [Nat.zero_add] at hip
  rw [hip]
  simp [Property.empty, Property.withValue, Property.withEnumerable,
    Property.withWritable, Property.withConfigurable]

theorem arrObj_lookup_ge (vals : List Value) (j : Nat) (hj : vals.length ≤ j) :
    lookupA (arrayAppend emptyArrayObject vals).properties (natKey j) = none := by
  rw [arrayAppend_empty]
  dsimp only
  simp only [lookupA]
  rw [if_neg (Ne.symm (natKey_ne_length j)), lookupA_append,
    lookupA_indexedProps_ge vals 0 j (Or.inr (by omega))]
  simp only [lookupA]
  rw [if_neg (Ne.symm (natKey_ne_length j))]

theorem arrObj_lookup_length (vals : List Value) :
    (lookupA (arrayAppend emptyArrayObject vals).properties "length").map
        Property.value = some (some (Value.num vals.length)) := by
  rw [arrayAppend_empty]
  simp [lookupA, Property.empty, Property.withValue, Property.withWritable]

theorem argsObj_lookup_lt (A : List Value) (j : Nat) (hj : j < A.length) :
    (lookupA (create_unmapped_arguments_object A).properties (natKey j)).map
        Property.value = some (some (A.getD j Value.undefined)) := by
  unfold create_unmapped_arguments_object
  dsimp only
  simp only [lookupA]
  rw [if_neg (Ne.symm (natKey_ne_length j))]
  have hip := lookupA_indexedProps_lt A 0 j hj
  simp only [Nat.zero_add] at hip
  rw [hip]
  simp [Property.empty, Property.withValue, Property.withEnumerable,
    Property.withWritable, Property.withConfigurable]

theorem argsObj_lookup_length (A : List Value) :
    (lookupA (create_unmapped_arguments_object A).properties "length").map
        Property.value = some (some (Value.num A.length)) := by
  unfold create_unmapped_arguments_object
  simp [lookupA, Property.empty, Property.withValue, Property.withWritable]

/-- The binding loop on a parameter list whose first rest parameter sits at
position `|pre|`, with enough arguments for the prefix: the prefix is bound,
the fresh sequence is allocated, filled with `A[|pre|..]` and bound under
the rest name, and the loop stops — parameters after the rest are never
visited. -/
theorem bindLoop_rest_step (pre : List FormalParameter) (r : FormalParameter)
    (post : List FormalParameter) (A : List Value) (env : Environment) (it : Interp)
    (hnr : ∀ p ∈ pre, p.is_rest_param = false)
    (hr : r.is_rest_param = true)
    (hle : pre.length ≤ A.length) :
    bindParamsLoop (pre ++ r :: post) 0 A env it =
      .ok (env.withBindings ((r.name, some (Value.objRef it.nextAddr)) ::
          (revBinds pre 0 A ++ env.bindings)),
        { it with
            heap := ((it.nextAddr, arrayAppend emptyArrayObject (A.drop pre.length)) ::
              (it.nextAddr, emptyArrayObject) :: it.heap),
            nextAddr := it.nextAddr + 1 }) := by
  rw [bindLoop_append_nonrest pre (r :: post) 0 A env it hnr (by omega)]
  simp only [bindParamsLoop, hr, if_true]
  unfold add_rest_param
  rw [if_pos (by omega : 0 + pre.length ≤ A.length)]
  dsimp only [new_array, Interp.alloc]
  unfold add_to_array_object
  have hget : heapGet ((it.nextAddr, emptyArrayObject) :: it.heap) it.nextAddr =
      some emptyArrayObject := by
    simp [heapGet, lookupN]
  dsimp only
  rw [hget]
  rw [create_init_cons, Environment.withBindings_withBindings,
    Environment.withBindings_bindings]
  simp only [Nat.zero_add, Interp.setHeap]

/-! ### C1 (amended) -/

/-- C1 (amended): for a parameter list with no rest parameter (distinct
names, none named "arguments") and a closure scope present, `call` binds
parameter `i` to `A[i]` for every `i < |P|` provided `|A| ≥ |P|`; but a
shorter-than-`|P|` argument list does not bind trailing parameters to
Undefined — the invocation aborts with the "Could not get value" panic. -/
theorem call_param_binding (f : Function) (thisV : Value) (A : List Value) (it : Interp)
    (run : Node → Interp → RValue × Interp)
    (hnr : ∀ p ∈ f.params, p.is_rest_param = false)
    (hnd : (f.params.map FormalParameter.name).Nodup)
    (hna : ∀ p ∈ f.params, p.name ≠ "arguments")
    (henv : f.environment.isSome = true) :
    (A.length < f.params.length →
      f.call thisV A it run = .error couldNotGetValue) ∧
    (f.params.length ≤ A.length →
      ∃ env it1, f.callEnv thisV A it = .ok (env, it1) ∧
        ∀ j (hj : j < f.params.length),
          env.getBinding ((f.params.get ⟨j, hj⟩).name) =
            some (some (A.getD j Value.undefined))) := by
  obtain ⟨scope, hscope⟩ : ∃ s, f.environment = some s := by
    cases hfe : f.environment with
    | none => rw [hfe] at henv; cases henv
    | some s => exact ⟨s, rfl⟩
  constructor
  · intro hlt
    have hbErr : bindParamsLoop f.params 0 A
        (new_function_environment thisV Value.undefined (some scope)) it =
        .error couldNotGetValue := by
      have h := bindLoop_panic f.params [] 0 A
        (new_function_environment thisV Value.undefined (some scope)) it hnr
        (by omega) (by omega)
      rwa [List.append_nil] at h
    exact call_error_of_callEnv f thisV A it run couldNotGetValue
      (prepareEnv_error_of_bindLoop f thisV Value.undefined A it scope
        couldNotGetValue hscope hbErr)
  · intro hle
    have hbOk : bindParamsLoop f.params 0 A
        (new_function_environment thisV Value.undefined (some scope)) it =
        .ok ((new_function_environment thisV Value.undefined
            (some scope)).withBindings (revBinds f.params 0 A ++
            (new_function_environment thisV Value.undefined (some scope)).bindings),
          it) := by
      have h := bindLoop_append_nonrest f.params [] 0 A
        (new_function_environment thisV Value.undefined (some scope)) it hnr
        (by omega)
      rw [List.append_nil] at h
      exact h.trans rfl
    refine ⟨_, _, prepareEnv_of_bindLoop f thisV Value.undefined A it scope _ it
      hscope hbOk, ?_⟩
    intro j hj
    have hmem : f.params.get ⟨j, hj⟩ ∈ f.params := List.get_mem _ _ _
    have hnam : (f.params.get ⟨j, hj⟩).name ≠ "arguments" := hna _ hmem
    rw [Environment.getBinding, Environment.withBindings_bindings]
    simp only [lookupA]
    rw [if_neg (Ne.symm hnam), Environment.withBindings_bindings]
    have hnil : (new_function_environment thisV Value.undefined
        (some scope)).bindings = [] := rfl
    rw [hnil, List.append_nil]
    have := lookupA_revBinds f.params 0 A j hj hnd
    simpa using this

/-- An ordinary entity with two non-rest parameters. -/
def fTwoParamsW : Function :=
  { internal_slots := [], properties := [], body := .BuiltIn nfConstUndefined,
    params := [⟨"p1", false⟩, ⟨"p2", false⟩], this_mode := .NonLexical,
    environment := some envRoot }

theorem call_param_binding_witness :
    (([Value.num 5, Value.num 6] : List Value).length < fTwoParamsW.params.length →
      fTwoParamsW.call Value.undefined [Value.num 5, Value.num 6] itEmpty
        runConstUndefined = .error couldNotGetValue) ∧
    (fTwoParamsW.params.length ≤ ([Value.num 5, Value.num 6] : List Value).length →
      ∃ env it1, fTwoParamsW.callEnv Value.undefined [Value.num 5, Value.num 6]
          itEmpty = .ok (env, it1) ∧
        ∀ j (hj : j < fTwoParamsW.params.length),
          env.getBinding ((fTwoParamsW.params.get ⟨j, hj⟩).name) =
            some (some (([Value.num 5, Value.num 6] : List Value).getD j
              Value.undefined))) :=
  call_param_binding fTwoParamsW Value.undefined [Value.num 5, Value.num 6] itEmpty
    runConstUndefined (by decide) (by decide) (by decide) rfl

/-! ### C5 -/

/-- C5: provided the body execution (native routine or executor) leaves the
activation-stack depth unchanged, every `call` or `construct` invocation
that returns — normally or with a language-level error, both live in the
returned completion — leaves the context's activation-stack depth exactly
as it found it: the activation is pushed once and popped on the way out. -/
theorem call_construct_stack_depth (f : Function) (thisV nt : Value) (A : List Value)
    (it : Interp) (run : Node → Interp → RValue × Interp)
    (hrun : ∀ nd s, ((run nd s).2).envStack.length = s.envStack.length)
    (hnat : ∀ nf, f.body = FunctionBody.BuiltIn nf →
      ∀ v xs s, ((nf v xs s).2).envStack.length = s.envStack.length) :
    (∀ rv it2, f.call thisV A it run = .ok (rv, it2) →
      it2.envStack.length = it.envStack.length) ∧
    (∀ rv it2, f.construct thisV nt A it run = .ok (rv, it2) →
      it2.envStack.length = it.envStack.length) := by
  have hpop : ∀ s : Interp, s.pop.envStack.length = s.envStack.length - 1 := by
    intro s
    simp [Interp.pop]
  constructor
  · intro rv it2 h
    unfold Function.call at h
    cases hce : f.callEnv thisV A it with
    | error m => rw [hce] at h; cases h
    | ok x =>
      obtain ⟨env, it1⟩ := x
      rw [hce] at h
      dsimp only at h
      have hstack : it1.envStack = it.envStack :=
        prepareEnv_envStack f thisV Value.undefined A it env it1 hce
      have hpush : (it1.push env).envStack.length = it1.envStack.length + 1 := rfl
      cases hb : f.body with
      | BuiltIn nf =>
        rw [hb] at h
        cases h
        rw [hpop, hnat nf hb thisV A (it1.push env), hpush, hstack]
        omega
      | Ordinary nd =>
        rw [hb] at h
        cases h
        rw [hpop, hrun nd (it1.push env), hpush, hstack]
        omega
  · intro rv it2 h
    unfold Function.construct at h
    cases hce : f.constructEnv thisV nt A it with
    | error m => rw [hce] at h; cases h
    | ok x =>
      obtain ⟨env, it1⟩ := x
      rw [hce] at h
      dsimp only at h
      have hstack : it1.envStack = it.envStack :=
        prepareEnv_envStack f thisV nt A it env it1 hce
      have hpush : (it1.push env).envStack.length = it1.envStack.length + 1 := rfl
      cases hb : f.body with
      | BuiltIn nf =>
        rw [hb] at h
        cases h
        rw [hpop, hnat nf hb nt A (it1.push env), hpush, hstack]
        omega
      | Ordinary nd =>
        rw [hb] at h
        cases h
        rw [hpop, hrun nd (it1.push env), hpush, hstack]
        omega

/-- A native entity with no parameters and a closure scope. -/
def fZeroParamsW : Function :=
  { internal_slots := [], properties := [], body := .BuiltIn nfConstUndefined,
    params := [], this_mode := .NonLexical, environment := some envRoot }

/-- An interpreter state whose activation stack already holds one scope. -/
def itOneEnvW : Interp := ⟨[], 0, [envRoot]⟩

theorem call_construct_stack_depth_witness :
    (∀ rv it2, fZeroParamsW.call Value.undefined [] itOneEnvW runConstUndefined =
        .ok (rv, it2) → it2.envStack.length = itOneEnvW.envStack.length) ∧
    (∀ rv it2, fZeroParamsW.construct Value.undefined (Value.objRef 9) [] itOneEnvW
        runConstUndefined = .ok (rv, it2) →
      it2.envStack.length = itOneEnvW.envStack.length) :=
  call_construct_stack_depth fZeroParamsW Value.undefined (Value.objRef 9) [] itOneEnvW
    runConstUndefined (fun _ _ => rfl)
    (fun nf hb v xs s => by
      injection hb with h
      subst h
      rfl)

/-! ### C6 -/

/-- An ordinary entity with parameters `[x, ...rp]`. -/
def fRestParamsW : Function :=
  { internal_slots := [], properties := [], body := .BuiltIn nfConstUndefined,
    params := [⟨"x", false⟩, ⟨"rp", true⟩], this_mode := .NonLexical,
    environment := some envRoot }

/-- C6 is false on the code: calling an entity whose parameter list is
`[x, ...rp]` with an empty argument list does not bind `rp` to an empty
sequence — the positional binding of `x` panics first ("Could not get
value"), aborting the invocation. -/
theorem call_rest_short_args_panics :
    fRestParamsW.call Value.undefined [] itEmpty runConstUndefined =
      .error couldNotGetValue := rfl

/-- C6 (amended): for a parameter list whose first rest parameter sits at
position `k = |pre|` and an argument list with `|A| ≥ k`, `call` binds the
rest name to a freshly allocated sequence holding exactly `A[k..]` (possibly
empty), never visits — hence never binds — parameters after the rest, and
binds "arguments" to a separate fresh object exposing all of the original
`A` unchanged; when `|A| < k` the invocation instead aborts with the
missing-argument panic. -/
theorem call_rest_param (f : Function) (thisV : Value) (A : List Value) (it : Interp)
    (run : Node → Interp → RValue × Interp)
    (pre : List FormalParameter) (r : FormalParameter) (post : List FormalParameter)
    (hP : f.params = pre ++ r :: post)
    (hnr : ∀ p ∈ pre, p.is_rest_param = false)
    (hr : r.is_rest_param = true)
    (hra : r.name ≠ "arguments")
    (henv : f.environment.isSome = true)
    (hWF : ∀ q ∈ it.heap, q.1 < it.nextAddr) :
    (A.length < pre.length →
      f.call thisV A it run = .error couldNotGetValue) ∧
    (pre.length ≤ A.length →
      ∃ env it1, f.callEnv thisV A it = .ok (env, it1) ∧
        heapGet it.heap it.nextAddr = none ∧
        env.getBinding r.name = some (some (Value.objRef it.nextAddr)) ∧
        (∃ o, heapGet it1.heap it.nextAddr = some o ∧
          (∀ j, j < A.length - pre.length →
            (lookupA o.properties (natKey j)).map Property.value =
              some (some (A.getD (pre.length + j) Value.undefined))) ∧
          (∀ j, A.length - pre.length ≤ j →
            lookupA o.properties (natKey j) = none) ∧
          (lookupA o.properties "length").map Property.value =
            some (some (Value.num (A.length - pre.length)))) ∧
        (∀ p ∈ post, p.name ∉ pre.map FormalParameter.name → p.name ≠ r.name →
          p.name ≠ "arguments" → env.getBinding p.name = none) ∧
        env.getBinding "arguments" = some (some (Value.objRef (it.nextAddr + 1))) ∧
        (∃ ao, heapGet it1.heap (it.nextAddr + 1) = some ao ∧
          (∀ j, j < A.length →
            (lookupA ao.properties (natKey j)).map Property.value =
              some (some (A.getD j Value.undefined))) ∧
          (lookupA ao.properties "length").map Property.value =
            some (some (Value.num A.length)))) := by
  obtain ⟨scope, hscope⟩ : ∃ s, f.environment = some s := by
    cases hfe : f.environment with
    | none => rw [hfe] at henv; cases henv
    | some s => exact ⟨s, rfl⟩
  constructor
  · intro hlt
    have hbErr : bindParamsLoop f.params 0 A
        (new_function_environment thisV Value.undefined (some scope)) it =
        .error couldNotGetValue := by
      rw [hP]
      exact bindLoop_panic pre (r :: post) 0 A _ it hnr (by omega) (by omega)
    exact call_error_of_callEnv f thisV A it run couldNotGetValue
      (prepareEnv_error_of_bindLoop f thisV Value.undefined A it scope
        couldNotGetValue hscope hbErr)
  · intro hle
    have hbOk : bindParamsLoop f.params 0 A
        (new_function_environment thisV Value.undefined (some scope)) it =
        .ok ((new_function_environment thisV Value.undefined
            (some scope)).withBindings
            ((r.name, some (Value.objRef it.nextAddr)) ::
              (revBinds pre 0 A ++ (new_function_environment thisV Value.undefined
                (some scope)).bindings)),
          { it with
              heap := ((it.nextAddr,
                  arrayAppend emptyArrayObject (A.drop pre.length)) ::
                (it.nextAddr, emptyArrayObject) :: it.heap),
              nextAddr := it.nextAddr + 1 }) := by
      rw [hP]
      exact bindLoop_rest_step pre r post A _ it hnr hr hle
    have hce := prepareEnv_of_bindLoop f thisV Value.undefined A it scope _ _
      hscope hbOk
    refine ⟨_, _, hce, ?_, ?_, ?_, ?_, ?_, ?_⟩
    · exact lookupN_eq_none it.heap it.nextAddr
        (fun q hq => by have := hWF q hq; omega)
    · rw [Environment.getBinding, Environment.withBindings_bindings]
      simp only [lookupA]
      rw [if_neg (Ne.symm hra)]
      simp [lookupA]
    · refine ⟨arrayAppend emptyArrayObject (A.drop pre.length), ?_, ?_, ?_, ?_⟩
      · show lookupN _ it.nextAddr = _
        simp only [Interp.alloc, Interp.setHeap, lookupN]
        rw [if_neg (by omega : ¬it.nextAddr + 1 = it.nextAddr)]
        simp
      · intro j hj
        have hdl : j < (A.drop pre.length).length := by
          rw [List.length_drop]
          omega
        have := arrObj_lookup_lt (A.drop pre.length) j hdl
        rwa [getD_drop] at this
      · intro j hj
        exact arrObj_lookup_ge (A.drop pre.length) j
          (by rw [List.length_drop]; omega)
      · have := arrObj_lookup_length (A.drop pre.length)
        rwa [List.length_drop] at this
    · intro p hp hp1 hp2 hp3
      rw [Environment.getBinding, Environment.withBindings_bindings]
      simp only [lookupA]
      rw [if_neg (Ne.symm hp3)]
      rw [if_neg (Ne.symm hp2), lookupA_append,
        lookupA_revBinds_notmem pre 0 A p.name hp1]
      rfl
    · rw [Environment.getBinding, Environment.withBindings_bindings]
      simp [lookupA]
    · refine ⟨create_unmapped_arguments_object A, ?_, ?_, ?_⟩
      · show lookupN _ (it.nextAddr + 1) = _
        simp only [Interp.alloc, lookupN]
        simp
      · intro j hj
        exact argsObj_lookup_lt A j hj
      · exact argsObj_lookup_length A

theorem call_rest_param_witness :
    (([Value.num 10, Value.num 20, Value.num 30] : List Value).length <
        ([⟨"x", false⟩] : List FormalParameter).length →
      fRestParamsW.call Value.undefined [Value.num 10, Value.num 20, Value.num 30]
        itEmpty runConstUndefined = .error couldNotGetValue) ∧
    (([⟨"x", false⟩] : List FormalParameter).length ≤
        ([Value.num 10, Value.num 20, Value.num 30] : List Value).length →
      ∃ env it1, fRestParamsW.callEnv Value.undefined
          [Value.num 10, Value.num 20, Value.num 30] itEmpty = .ok (env, it1) ∧
        heapGet itEmpty.heap itEmpty.nextAddr = none ∧
        env.getBinding (FormalParameter.name ⟨"rp", true⟩) =
          some (some (Value.objRef itEmpty.nextAddr)) ∧
        (∃ o, heapGet it1.heap itEmpty.nextAddr = some o ∧
          (∀ j, j < ([Value.num 10, Value.num 20, Value.num 30] : List Value).length -
              ([⟨"x", false⟩] : List FormalParameter).length →
            (lookupA o.properties (natKey j)).map Property.value =
              some (some (([Value.num 10, Value.num 20, Value.num 30] :
                List Value).getD (([⟨"x", false⟩] :
                  List FormalParameter).length + j) Value.undefined))) ∧
          (∀ j, ([Value.num 10, Value.num 20, Value.num 30] : List Value).length -
              ([⟨"x", false⟩] : List FormalParameter).length ≤ j →
            lookupA o.properties (natKey j) = none) ∧
          (lookupA o.properties "length").map Property.value =
            some (some (Value.num (([Value.num 10, Value.num 20, Value.num 30] :
              List Value).length -
              ([⟨"x", false⟩] : List FormalParameter).length)))) ∧
        (∀ p ∈ ([] : List FormalParameter),
          p.name ∉ ([⟨"x", false⟩] : List FormalParameter).map FormalParameter.name →
          p.name ≠ FormalParameter.name ⟨"rp", true⟩ → p.name ≠ "arguments" →
          env.getBinding p.name = none) ∧
        env.getBinding "arguments" =
          some (some (Value.objRef (itEmpty.nextAddr + 1))) ∧
        (∃ ao, heapGet it1.heap (itEmpty.nextAddr + 1) = some ao ∧
          (∀ j, j < ([Value.num 10, Value.num 20, Value.num 30] : List Value).length →
            (lookupA ao.properties (natKey j)).map Property.value =
              some (some (([Value.num 10, Value.num 20, Value.num 30] :
                List Value).getD j Value.undefined))) ∧
          (lookupA ao.properties "length").map Property.value =
            some (some (Value.num ([Value.num 10, Value.num 20, Value.num 30] :
              List Value).length)))) :=
  call_rest_param fRestParamsW Value.undefined
    [Value.num 10, Value.num 20, Value.num 30] itEmpty runConstUndefined
    [⟨"x", false⟩] ⟨"rp", true⟩ [] rfl (by decide) rfl (by decide) rfl
    (fun q hq => absurd hq (List.not_mem_nil q))

/-! ### C9 -/

/-- C9: on a native-body entity, `construct` stores the caller-supplied
`new_target` — not Undefined — as the activation's new-target, invokes the
native routine with `new_target` in the argument position `call` gives
`this_value`, and performs exactly the same parameter-binding and
arguments-object setup as `call`: the activation it builds differs from
`call`'s only in the new-target. -/
theorem construct_native_new_target (f : Function) (nf : NativeFunctionData)
    (thisV nt : Value) (A : List Value) (it : Interp)
    (run : Node → Interp → RValue × Interp) (env : Environment) (it1 : Interp)
    (hb : f.body = FunctionBody.BuiltIn nf)
    (hc : f.constructEnv thisV nt A it = .ok (env, it1)) :
    env.new_target = nt ∧
    (nt ≠ Value.undefined → env.new_target ≠ Value.undefined) ∧
    f.construct thisV nt A it run =
      .ok ((nf nt A (it1.push env)).1, ((nf nt A (it1.push env)).2).pop) ∧
    (∃ env2, f.callEnv thisV A it = .ok (env2, it1) ∧
      env2.bindings = env.bindings ∧ env2.this_binding = env.this_binding) := by
  have hc' : prepareEnv f thisV nt A it = .ok (env, it1) := hc
  rw [prepareEnv_withNewTarget f thisV nt A it] at hc'
  cases hu : prepareEnv f thisV Value.undefined A it with
  | error m => rw [hu] at hc'; cases hc'
  | ok x =>
    obtain ⟨env0, it0⟩ := x
    rw [hu] at hc'
    dsimp only [Except.map] at hc'
    have hp := Except.ok.inj hc'
    have he : env0.withNewTarget nt = env := congrArg Prod.fst hp
    have hi : it0 = it1 := congrArg Prod.snd hp
    subst hi
    subst he
    refine ⟨Environment.withNewTarget_nt env0 nt, ?_, ?_, env0, hu, ?_, ?_⟩
    · intro h
      rw [Environment.withNewTarget_nt]
      exact h
    · unfold Function.construct
      rw [hc]
      dsimp only
      rw [hb]
    · exact (Environment.withNewTarget_bindings env0 nt).symm
    · exact (Environment.withNewTarget_this env0 nt).symm

/-- The activation `construct` builds for `fZeroParamsW` with new-target
`objRef 9`. -/
def envConstructW : Environment :=
  .mk Value.undefined (Value.objRef 9) (some envRoot)
    [("arguments", some (Value.objRef 0))]

/-- The interpreter state after that activation setup. -/
def itConstructW : Interp := ⟨[(0, create_unmapped_arguments_object [])], 1, [envRoot]⟩

theorem construct_native_new_target_witness :
    envConstructW.new_target = Value.objRef 9 ∧
    (Value.objRef 9 ≠ Value.undefined → envConstructW.new_target ≠ Value.undefined) ∧
    fZeroParamsW.construct Value.undefined (Value.objRef 9) [] itOneEnvW
        runConstUndefined =
      .ok ((nfConstUndefined (Value.objRef 9) [] (itConstructW.push envConstructW)).1,
        ((nfConstUndefined (Value.objRef 9) [] (itConstructW.push envConstructW)).2).pop) ∧
    (∃ env2, fZeroParamsW.callEnv Value.undefined [] itOneEnvW =
        .ok (env2, itConstructW) ∧
      env2.bindings = envConstructW.bindings ∧
      env2.this_binding = envConstructW.this_binding) :=
  construct_native_new_target fZeroParamsW nfConstUndefined Value.undefined
    (Value.objRef 9) [] itOneEnvW runConstUndefined envConstructW itConstructW rfl rfl

end Boa
